import Mathlib

/-!
# Verification of the jobly SQL clause builders

Shallow embedding of `src/helpers/sql.js` (`sqlForPartialUpdate`),
`src/models/company.js` (`Company._sqlForFilter`) and
`src/models/job.js` (`Job._sqlForFilter`).

JavaScript values reaching the builders are modelled by `JSVal`
(strings, integer-valued numbers, booleans, `null`, `undefined`);
objects are modelled as ordered association lists of string keys
(JS object literals keep string-key insertion order), property access
yields `undefined` when the key is absent, and JS truthiness and the
template-literal stringification are made explicit.
-/

/-- A JavaScript scalar value as it reaches the builders.  Numbers are
modelled as integers (the spec's `FilterSpec`/`FieldMap` carry integer
bounds and scalar fields; non-integer floats are outside the model). -/
inductive JSVal where
  | str (s : String)
  | num (n : Int)
  | bool (b : Bool)
  | null
  | undefined
deriving DecidableEq, Repr

/-- JS truthiness: `""`, `0`, `false`, `null` and `undefined` are falsy. -/
def truthy : JSVal → Bool
  | .str s => !s.isEmpty
  | .num n => n != 0
  | .bool b => b
  | .null => false
  | .undefined => false

/-- Value of a decimal digit character. -/
def digitVal (c : Char) : Nat := c.toNat - 48

/-- Numeric value of a digit string, most significant first. -/
def digitsVal : List Char → Nat
  | [] => 0
  | d :: ds => digitVal d * 10 ^ ds.length + digitsVal ds

/-- Decimal digits of `n`, most significant first (fuelled so that it
reduces by `rfl`; the fuel `n + 1` always suffices). -/
def natDigitsAux : Nat → Nat → List Char
  | 0, _ => []
  | fuel + 1, n =>
    if n < 10 then [Char.ofNat (48 + n)]
    else natDigitsAux fuel (n / 10) ++ [Char.ofNat (48 + n % 10)]

/-- Decimal digits of `n`, most significant first. -/
def natDigits (n : Nat) : List Char := natDigitsAux (n + 1) n

/-- Decimal rendering of a natural number (JS `toString` on a
non-negative integer). -/
def natToStr (n : Nat) : String := ⟨natDigits n⟩

/-- Decimal rendering of an integer (JS `toString` on an integer). -/
def intToStr (i : Int) : String :=
  if i < 0 then "-" ++ natToStr i.natAbs else natToStr i.toNat

/-- JS template-literal stringification of a value. -/
def jsToString : JSVal → String
  | .str s => s
  | .num n => intToStr n
  | .bool b => cond b "true" "false"
  | .null => "null"
  | .undefined => "undefined"

/-- JS `Number(string)` restricted to the integer world of the model:
surrounding whitespace is trimmed, the empty string converts to `0`, an
optional sign followed by decimal digits converts to the signed value,
anything else is NaN (`none`). -/
def jsStrToNumber (s : String) : Option Int :=
  let l := (((s.data.dropWhile Char.isWhitespace).reverse.dropWhile
      Char.isWhitespace).reverse)
  if l.isEmpty then some 0
  else
    match l with
    | '-' :: ds => if !ds.isEmpty && ds.all Char.isDigit then some (-(digitsVal ds : Int)) else none
    | '+' :: ds => if !ds.isEmpty && ds.all Char.isDigit then some ((digitsVal ds : Int)) else none
    | ds => if ds.all Char.isDigit then some ((digitsVal ds : Int)) else none

/-- JS `ToNumber`; `none` is NaN. -/
def toNumber : JSVal → Option Int
  | .num n => some n
  | .bool b => some (cond b 1 0)
  | .null => some 0
  | .undefined => none
  | .str s => jsStrToNumber s

/-- The JS `<` relational operator on the modelled values: two strings
compare lexicographically, otherwise both sides convert with `ToNumber`
and any NaN makes the comparison false. -/
def jsLt (a b : JSVal) : Bool :=
  match a, b with
  | .str s, .str t => decide (s < t)
  | a, b =>
    match toNumber a, toNumber b with
    | some x, some y => decide (x < y)
    | _, _ => false

/-- A JS object as an ordered association list (insertion order). -/
abbrev JSObj : Type := List (String × JSVal)

/-- First binding of key `k`, if any (JS objects have unique keys, so
first-match lookup agrees with JS property lookup). -/
def lookupKey : JSObj → String → Option JSVal
  | [], _ => none
  | (k', v) :: rest, k => if k' = k then some v else lookupKey rest k

/-- JS property access `o.k`: the bound value, or `undefined`. -/
def getField (o : JSObj) (k : String) : JSVal := (lookupKey o k).getD .undefined

/-- The JS `in` operator: is the key present? -/
def keyIn (o : JSObj) (k : String) : Bool := (lookupKey o k).isSome

/-- Embedding of `Array.prototype.join(sep)`. -/
def joinSep (sep : String) : List String → String
  | [] => ""
  | [s] => s
  | s :: rest => s ++ sep ++ joinSep sep rest

/-- The errors the builders raise.  All three builder failure sites in
the source construct `new BadRequestError(message)`; `NotFoundError`
exists in the surrounding models but is never raised by a builder. -/
inductive JError where
  | badRequest (msg : String)
  | notFound (msg : String)
deriving DecidableEq, Repr

/-- Result of `sqlForPartialUpdate`: `{ setCols, values }`. -/
structure SetClause where
  setCols : String
  values : List JSVal
deriving DecidableEq, Repr

/-- Result of `_sqlForFilter`: `{ whereStatement, values }`. -/
structure WhereClause where
  whereStatement : String
  values : List JSVal
deriving DecidableEq, Repr

/-- Resolution of `` `"${jsToSql[colName] || colName}"` `` — the physical column name:
the translation-table entry when it is truthy (template-stringified),
otherwise the logical key verbatim. -/
def physName (jsToSql : JSObj) (colName : String) : String :=
  if truthy (getField jsToSql colName) then jsToString (getField jsToSql colName) else colName

/-- Embedding of `keys.map((colName, idx) => `"${jsToSql[colName] || colName}"=$${idx + 1}`)`
with the running index made explicit (`i` is the number of fragments
already emitted). -/
def colsAux (jsToSql : JSObj) : Nat → List String → List String
  | _, [] => []
  | i, k :: ks =>
    ("\"" ++ physName jsToSql k ++ "\"=$" ++ natToStr (i + 1)) :: colsAux jsToSql (i + 1) ks

/-- Embedding of `sqlForPartialUpdate(dataToUpdate, jsToSql)` from `src/helpers/sql.js`:
throws `BadRequestError("No data")` on an empty object, otherwise maps
each key (insertion order) to a quoted-column `=$n` fragment joined with
`", "`, and returns `Object.values(dataToUpdate)` unchanged. -/
def sqlForPartialUpdate (dataToUpdate jsToSql : JSObj) : Except JError SetClause :=
  if (dataToUpdate.map Prod.fst).length = 0 then .error (.badRequest "No data")
  else
    .ok { setCols := joinSep ", " (colsAux jsToSql 0 (dataToUpdate.map Prod.fst))
          values := dataToUpdate.map Prod.snd }

/-- The fragment/value accumulation inside `Company._sqlForFilter`
(`src/models/company.js`): `nameLike` first, then `minEmployees`, then
`maxEmployees`; each placeholder number is `params.length + 1` at the
time of the push; the substring value is pushed wrapped as `%...%`. -/
def companyBuild (p : JSObj) : List String × List JSVal :=
  let acc0 : List String × List JSVal := ([], [])
  let acc1 :=
    if keyIn p "nameLike" then
      (acc0.1 ++ ["name ILIKE $" ++ natToStr (acc0.1.length + 1)],
       acc0.2 ++ [.str ("%" ++ jsToString (getField p "nameLike") ++ "%")])
    else acc0
  let acc2 :=
    if keyIn p "minEmployees" then
      (acc1.1 ++ ["num_employees >= $" ++ natToStr (acc1.1.length + 1)],
       acc1.2 ++ [getField p "minEmployees"])
    else acc1
  if keyIn p "maxEmployees" then
    (acc2.1 ++ ["num_employees <= $" ++ natToStr (acc2.1.length + 1)],
     acc2.2 ++ [getField p "maxEmployees"])
  else acc2

/-- Embedding of `Company._sqlForFilter(filterParams)`: when both bounds are truthy
and `maxEmployees < minEmployees` (JS `<`), throws
`BadRequestError("Minimum Employees must be less than Maximum Employees")`;
otherwise joins the accumulated fragments with `" AND "` — with no check
that any fragment was emitted at all. -/
def companySqlForFilter (p : JSObj) : Except JError WhereClause :=
  if truthy (getField p "maxEmployees") && truthy (getField p "minEmployees")
      && jsLt (getField p "maxEmployees") (getField p "minEmployees") then
    .error (.badRequest "Minimum Employees must be less than Maximum Employees")
  else
    .ok { whereStatement := joinSep " AND " (companyBuild p).1
          values := (companyBuild p).2 }

/-- The fragment/value accumulation inside `Job._sqlForFilter`
(`src/models/job.js`): `titleLike` first, then `minSalary`, then the
`hasEquity` flag, which (only when present and truthy) pushes the fixed
fragment `equity > 0` with no placeholder and no value. -/
def jobBuild (p : JSObj) : List String × List JSVal :=
  let acc0 : List String × List JSVal := ([], [])
  let acc1 :=
    if keyIn p "titleLike" then
      (acc0.1 ++ ["title ILIKE $" ++ natToStr (acc0.1.length + 1)],
       acc0.2 ++ [.str ("%" ++ jsToString (getField p "titleLike") ++ "%")])
    else acc0
  let acc2 :=
    if keyIn p "minSalary" then
      (acc1.1 ++ ["salary >= $" ++ natToStr (acc1.1.length + 1)],
       acc1.2 ++ [getField p "minSalary"])
    else acc1
  if keyIn p "hasEquity" && truthy (getField p "hasEquity") then
    (acc2.1 ++ ["equity > 0"], acc2.2)
  else acc2

/-- Embedding of `Job._sqlForFilter(filterParams)`: accumulates the fragments, then
throws `BadRequestError("No search valid search parameters")` when no
fragment was emitted, else joins them with `" AND "`. -/
def jobSqlForFilter (p : JSObj) : Except JError WhereClause :=
  if (jobBuild p).1.length = 0 then
    .error (.badRequest "No search valid search parameters")
  else
    .ok { whereStatement := joinSep " AND " (jobBuild p).1
          values := (jobBuild p).2 }

example : sqlForPartialUpdate
    [("firstName", .str "Aliya"), ("age", .num 32)] [("firstName", .str "first_name")]
    = .ok ⟨"\"first_name\"=$1, \"age\"=$2", [.str "Aliya", .num 32]⟩ := by rfl

example : companySqlForFilter [("nameLike", .str "net")]
    = .ok ⟨"name ILIKE $1", [.str "%net%"]⟩ := by rfl

example : companySqlForFilter [("minEmployees", .num 10), ("maxEmployees", .num 1)]
    = .error (.badRequest "Minimum Employees must be less than Maximum Employees") := by rfl

example : companySqlForFilter [("minEmployees", .num 10), ("maxEmployees", .num 0)]
    = .ok ⟨"num_employees >= $1 AND num_employees <= $2", [.num 10, .num 0]⟩ := by rfl

example : companySqlForFilter [] = .ok ⟨"", []⟩ := by rfl

example : jobSqlForFilter [("hasEquity", .bool false)]
    = .error (.badRequest "No search valid search parameters") := by rfl

example : jobSqlForFilter [("titleLike", .str "cat"), ("minSalary", .num 2), ("hasEquity", .bool true)]
    = .ok ⟨"title ILIKE $1 AND salary >= $2 AND equity > 0", [.str "%cat%", .num 2]⟩ := by rfl

/-!
## A textual placeholder scanner

`scanPH` lists, left to right, the numbers of the `$<digits>` tokens
occurring in a string — the positional placeholders as a textual scan
finds them.  It is phrased as a single structural right fold so that it
reduces by `rfl` on concrete input: the scan state carries the list of
placeholders already found in the suffix together with the value and
magnitude of the suffix's maximal leading digit run, and a `'$'`
immediately preceding a non-empty digit run closes a placeholder.
-/

/-- Right-fold scanner core.  `(scanCore l).1` is the placeholder list of
`l`; `(scanCore l).2` is `some (v, 10 ^ k)` when `l` starts with a
maximal digit run of length `k > 0` and value `v`, else `none`. -/
def scanCore : List Char → List Nat × Option (Nat × Nat)
  | [] => ([], none)
  | c :: rest =>
    let s := scanCore rest
    if c.isDigit then
      match s.2 with
      | some (v, m) => (s.1, some (digitVal c * m + v, m * 10))
      | none => (s.1, some (digitVal c, 10))
    else if c = '$' then
      match s.2 with
      | some (v, _) => (v :: s.1, none)
      | none => (s.1, none)
    else (s.1, none)

/-- The numbers of the `$<digits>` tokens occurring in `s`, in order. -/
def placeholdersIn (s : String) : List Nat := (scanCore s.data).1

/-- The list `[start, start+1, ..., start+len-1]`. -/
def natRange (start : Nat) : Nat → List Nat
  | 0 => []
  | len + 1 => start :: natRange (start + 1) len

example : placeholdersIn "num_employees >= $1 AND num_employees <= $2" = [1, 2] := by rfl
example : placeholdersIn "\"a$2\"=$1" = [2, 1] := by rfl
example : placeholdersIn "equity > 0" = [] := by rfl
example : natRange 1 3 = [1, 2, 3] := by rfl

/-! ### Scanner lemmas -/

theorem scanCore_fst_cons_not_dollar {c : Char} (h : c ≠ '$') (l : List Char) :
    (scanCore (c :: l)).1 = (scanCore l).1 := by
  simp only [scanCore]
  by_cases hd : c.isDigit
  · simp only [hd, if_pos]
    cases (scanCore l).2 with
    | none => rfl
    | some p => rfl
  · simp only [hd, Bool.false_eq_true, if_neg, h, reduceIte]

theorem scanCore_fst_append_no_dollar {a : List Char} (h : ∀ c ∈ a, c ≠ '$')
    (b : List Char) : (scanCore (a ++ b)).1 = (scanCore b).1 := by
  induction a with
  | nil => rfl
  | cons c a ih =>
    rw [List.cons_append, scanCore_fst_cons_not_dollar (h c (by simp))]
    exact ih (fun x hx => h x (by simp [hx]))

theorem scanCore_snd_head_not_digit : ∀ {l : List Char},
    (∀ c, l.head? = some c → c.isDigit = false) → (scanCore l).2 = none := by
  intro l h
  cases l with
  | nil => rfl
  | cons c rest =>
    have hc : c.isDigit = false := h c rfl
    simp only [scanCore, hc, Bool.false_eq_true, if_neg, reduceIte]
    by_cases hd : c = '$'
    · simp only [hd, reduceIte]
      cases (scanCore rest).2 with
      | none => rfl
      | some p => rfl
    · simp [hd]

/-- One-step unfolding of `scanCore` on a digit character. -/
theorem scanCore_cons_digit {c : Char} (hc : c.isDigit = true) (l : List Char) :
    scanCore (c :: l) =
      match (scanCore l).2 with
      | some (v, m) => ((scanCore l).1, some (digitVal c * m + v, m * 10))
      | none => ((scanCore l).1, some (digitVal c, 10)) := by
  simp [scanCore, hc]

/-- One-step unfolding of `scanCore` on `'$'`. -/
theorem scanCore_cons_dollar (l : List Char) :
    scanCore ('$' :: l) =
      match (scanCore l).2 with
      | some (v, _) => (v :: (scanCore l).1, none)
      | none => ((scanCore l).1, none) := by
  simp [scanCore]

/-- Scanning a non-empty all-digit run `ds` followed by a non-digit (or
nothing): the run contributes no placeholder of its own and leaves the
state `some (digitsVal ds, 10 ^ ds.length)`. -/
theorem scanCore_digit_run : ∀ {ds : List Char}, ds ≠ [] → (∀ c ∈ ds, c.isDigit) →
    ∀ {rest : List Char}, (∀ c, rest.head? = some c → c.isDigit = false) →
    scanCore (ds ++ rest) = ((scanCore rest).1, some (digitsVal ds, 10 ^ ds.length)) := by
  intro ds hne hdig rest hrest
  induction ds with
  | nil => exact absurd rfl hne
  | cons d ds ih =>
    have hd : d.isDigit := hdig d (by simp)
    cases ds with
    | nil =>
      have h2 : (scanCore rest).2 = none := scanCore_snd_head_not_digit hrest
      rw [List.singleton_append, scanCore_cons_digit hd, h2]
      simp [digitsVal]
    | cons d' ds' =>
      have ihx := ih (by simp) (fun c hc => hdig c (by simp [hc]))
      rw [List.cons_append, scanCore_cons_digit hd, ihx]
      simp only [digitsVal, List.length_cons, Option.some.injEq, Prod.mk.injEq]
      refine ⟨trivial, trivial, by ring⟩

theorem digitsVal_append_singleton (ds : List Char) (c : Char) :
    digitsVal (ds ++ [c]) = digitsVal ds * 10 + digitVal c := by
  induction ds with
  | nil => simp [digitsVal]
  | cons d ds ih =>
    rw [List.cons_append]
    simp only [digitsVal]
    rw [ih, List.length_append, List.length_cons, List.length_nil]
    ring

theorem natDigitsAux_all_digit : ∀ (fuel n : Nat), ∀ c ∈ natDigitsAux fuel n, c.isDigit := by
  intro fuel
  induction fuel with
  | zero => intro n c hc; simp [natDigitsAux] at hc
  | succ fuel ih =>
    intro n c hc
    by_cases h : n < 10
    · simp only [natDigitsAux, h, if_pos, List.mem_singleton] at hc
      subst hc
      interval_cases n <;> decide
    · simp only [natDigitsAux, h, if_neg, List.mem_append, List.mem_singleton,
        Bool.false_eq_true, reduceIte] at hc
      rcases hc with hc | hc
      · exact ih (n / 10) c hc
      · subst hc
        have hm : n % 10 < 10 := Nat.mod_lt n (by omega)
        set m := n % 10 with hmdef
        interval_cases m <;> decide

theorem natDigitsAux_ne_nil (fuel n : Nat) (h : 0 < fuel) : natDigitsAux fuel n ≠ [] := by
  cases fuel with
  | zero => omega
  | succ fuel =>
    by_cases hn : n < 10 <;> simp [natDigitsAux, hn]

theorem digitsVal_natDigitsAux : ∀ (fuel n : Nat), n < fuel →
    digitsVal (natDigitsAux fuel n) = n := by
  intro fuel
  induction fuel with
  | zero => omega
  | succ fuel ih =>
    intro n hn
    by_cases h : n < 10
    · simp only [natDigitsAux, h, if_pos]
      have : digitsVal [Char.ofNat (48 + n)] = digitVal (Char.ofNat (48 + n)) := by
        simp [digitsVal, digitVal]
      rw [this]
      interval_cases n <;> decide
    · simp only [natDigitsAux, h, Bool.false_eq_true, if_neg, reduceIte]
      rw [digitsVal_append_singleton]
      have hdiv : n / 10 < fuel := by
        have h1 : n / 10 < n := Nat.div_lt_self (by omega) (by omega)
        omega
      rw [ih (n / 10) hdiv]
      have hm : n % 10 < 10 := Nat.mod_lt n (by omega)
      have : digitVal (Char.ofNat (48 + n % 10)) = n % 10 := by
        set m := n % 10 with hmdef
        interval_cases m <;> decide
      rw [this]
      omega

theorem natDigits_all_digit (n : Nat) : ∀ c ∈ natDigits n, c.isDigit :=
  natDigitsAux_all_digit (n + 1) n

theorem natDigits_ne_nil (n : Nat) : natDigits n ≠ [] :=
  natDigitsAux_ne_nil (n + 1) n (by omega)

theorem digitsVal_natDigits (n : Nat) : digitsVal (natDigits n) = n :=
  digitsVal_natDigitsAux (n + 1) n (by omega)

theorem natDigits_not_dollar (n : Nat) : ∀ c ∈ natDigits n, c ≠ '$' := by
  intro c hc he
  have := natDigits_all_digit n c hc
  rw [he] at this
  simp [Char.isDigit] at this

/-- A `'$'` followed by the decimal digits of `n` and then a non-digit
(or nothing) scans as the placeholder `n`. -/
theorem scanCore_fst_dollar_run (n : Nat) {rest : List Char}
    (hrest : ∀ c, rest.head? = some c → c.isDigit = false) :
    (scanCore ('$' :: (natDigits n ++ rest))).1 = n :: (scanCore rest).1 := by
  rw [scanCore_cons_dollar,
    scanCore_digit_run (natDigits_ne_nil n) (natDigits_all_digit n) hrest]
  simp [digitsVal_natDigits]

theorem data_append (s t : String) : (s ++ t).data = s.data ++ t.data := rfl

/-- Character layout of one `"<col>"=$<m>` fragment. -/
theorem frag_data (pn : String) (m : Nat) :
    ("\"" ++ pn ++ "\"=$" ++ natToStr m).data
      = ('"' :: pn.data ++ ['"', '=']) ++ '$' :: natDigits m := by
  simp [data_append, natToStr, List.append_assoc]

/-- Scanning one `"<col>"=$<m>` fragment followed by `rest` (whose head
is not a digit) finds the placeholder `m` and then those of `rest`,
provided the column name contains no `'$'`. -/
theorem scan_frag_append (pn : String) (m : Nat) (hpn : ∀ c ∈ pn.data, c ≠ '$')
    (rest : List Char) (hrest : ∀ c, rest.head? = some c → c.isDigit = false) :
    (scanCore (("\"" ++ pn ++ "\"=$" ++ natToStr m).data ++ rest)).1
      = m :: (scanCore rest).1 := by
  have hpref : ∀ c ∈ ('"' :: pn.data ++ ['"', '=']), c ≠ '$' := by
    intro c hc
    rcases List.mem_cons.1 hc with h | h
    · subst h; decide
    · rcases List.mem_append.1 h with h | h
      · exact hpn c h
      · rcases List.mem_cons.1 h with h | h
        · subst h; decide
        · simp at h; subst h; decide
  have hshape : ((('"' :: pn.data ++ ['"', '=']) ++ ('$' :: natDigits m)) ++ rest)
      = ('"' :: pn.data ++ ['"', '=']) ++ ('$' :: (natDigits m ++ rest)) := by
    simp
  rw [frag_data, hshape, scanCore_fst_append_no_dollar hpref]
  exact scanCore_fst_dollar_run m hrest

/-- Scanning the joined `SET` fragments built by `colsAux` from start
index `i` yields exactly the contiguous placeholders `i+1, …, i+n`,
provided no physical column name contains a literal `'$'`. -/
theorem scan_colsAux (t : JSObj) : ∀ (ks : List String) (i : Nat),
    (∀ k ∈ ks, ∀ c ∈ (physName t k).data, c ≠ '$') →
    (scanCore (joinSep ", " (colsAux t i ks)).data).1 = natRange (i + 1) ks.length := by
  intro ks
  induction ks with
  | nil => intro i _; rfl
  | cons k ks ih =>
    intro i hno
    have hkno : ∀ c ∈ (physName t k).data, c ≠ '$' := hno k (by simp)
    cases ks with
    | nil =>
      have hsingle : joinSep ", " (colsAux t i [k])
          = "\"" ++ physName t k ++ "\"=$" ++ natToStr (i + 1) := rfl
      rw [hsingle]
      have := scan_frag_append (physName t k) (i + 1) hkno [] (by intro c hc; simp at hc)
      rw [List.append_nil] at this
      rw [this]
      rfl
    | cons k' ks' =>
      have hjoin : joinSep ", " (colsAux t i (k :: k' :: ks'))
          = (("\"" ++ physName t k ++ "\"=$" ++ natToStr (i + 1)) ++ ", ")
            ++ joinSep ", " (colsAux t (i + 1) (k' :: ks')) := rfl
      rw [hjoin, data_append, data_append]
      have hsplit : (("\"" ++ physName t k ++ "\"=$" ++ natToStr (i + 1)).data
            ++ (", " : String).data) ++ (joinSep ", " (colsAux t (i + 1) (k' :: ks'))).data
          = ("\"" ++ physName t k ++ "\"=$" ++ natToStr (i + 1)).data
            ++ (',' :: ' ' :: (joinSep ", " (colsAux t (i + 1) (k' :: ks'))).data) := by
        rw [List.append_assoc]
        rfl
      rw [hsplit, scan_frag_append (physName t k) (i + 1) hkno _
        (by intro c hc; simp at hc; subst hc; decide)]
      rw [scanCore_fst_cons_not_dollar (by decide), scanCore_fst_cons_not_dollar (by decide)]
      rw [ih (i + 1) (fun x hx => hno x (by simp [hx]))]
      rfl

/-!
## Claim-side characterizations

The functions `companyFragList`/`jobFragList` compute, from the presence booleans
alone (plus, for jobs, the truthiness of the `hasEquity` flag), the
fragment list each filter builder emits, in the builder's fixed walk
order with its running placeholder numbering; `companyValsList`/
`jobValsList` compute the pushed values.  They are the yardsticks the
claims are checked against.
-/

def companyFragList (b1 b2 b3 : Bool) : List String :=
  let l1 : List String := if b1 then ["name ILIKE $1"] else []
  let l2 := if b2 then l1 ++ ["num_employees >= $" ++ natToStr (l1.length + 1)] else l1
  if b3 then l2 ++ ["num_employees <= $" ++ natToStr (l2.length + 1)] else l2

def companyValsList (p : JSObj) : List JSVal :=
  (if keyIn p "nameLike" then [.str ("%" ++ jsToString (getField p "nameLike") ++ "%")] else [])
    ++ (if keyIn p "minEmployees" then [getField p "minEmployees"] else [])
    ++ (if keyIn p "maxEmployees" then [getField p "maxEmployees"] else [])

def jobFragList (b1 b2 bf : Bool) : List String :=
  let l1 : List String := if b1 then ["title ILIKE $1"] else []
  let l2 := if b2 then l1 ++ ["salary >= $" ++ natToStr (l1.length + 1)] else l1
  if bf then l2 ++ ["equity > 0"] else l2

def jobValsList (p : JSObj) : List JSVal :=
  (if keyIn p "titleLike" then [.str ("%" ++ jsToString (getField p "titleLike") ++ "%")] else [])
    ++ (if keyIn p "minSalary" then [getField p "minSalary"] else [])

theorem companyBuild_eq (p : JSObj) :
    companyBuild p = (companyFragList (keyIn p "nameLike") (keyIn p "minEmployees")
      (keyIn p "maxEmployees"), companyValsList p) := by
  cases h1 : keyIn p "nameLike" <;> cases h2 : keyIn p "minEmployees" <;>
    cases h3 : keyIn p "maxEmployees" <;>
    simp [companyBuild, companyFragList, companyValsList, h1, h2, h3] <;> rfl

theorem jobBuild_eq (p : JSObj) :
    jobBuild p = (jobFragList (keyIn p "titleLike") (keyIn p "minSalary")
      (keyIn p "hasEquity" && truthy (getField p "hasEquity")), jobValsList p) := by
  cases h1 : keyIn p "titleLike" <;> cases h2 : keyIn p "minSalary" <;>
    cases hf : (keyIn p "hasEquity" && truthy (getField p "hasEquity")) <;>
    simp [jobBuild, jobFragList, jobValsList, h1, h2, hf] <;> rfl

theorem company_ok (p : JSObj) (c : WhereClause) (h : companySqlForFilter p = .ok c) :
    c = ⟨joinSep " AND " (companyFragList (keyIn p "nameLike") (keyIn p "minEmployees")
      (keyIn p "maxEmployees")), companyValsList p⟩ := by
  unfold companySqlForFilter at h
  split at h
  · exact absurd h (by simp)
  · rw [companyBuild_eq] at h
    exact (Except.ok.injEq _ _ ▸ h).symm

theorem job_ok (p : JSObj) (c : WhereClause) (h : jobSqlForFilter p = .ok c) :
    c = ⟨joinSep " AND " (jobFragList (keyIn p "titleLike") (keyIn p "minSalary")
      (keyIn p "hasEquity" && truthy (getField p "hasEquity"))), jobValsList p⟩ := by
  unfold jobSqlForFilter at h
  split at h
  · exact absurd h (by simp)
  · rw [jobBuild_eq] at h
    exact (Except.ok.injEq _ _ ▸ h).symm

theorem partialUpdate_ok (d t : JSObj) (c : SetClause) (h : sqlForPartialUpdate d t = .ok c) :
    d ≠ [] ∧ c = ⟨joinSep ", " (colsAux t 0 (d.map Prod.fst)), d.map Prod.snd⟩ := by
  unfold sqlForPartialUpdate at h
  split at h
  · exact absurd h (by simp)
  · next hlen =>
    refine ⟨?_, (Except.ok.injEq _ _ ▸ h).symm⟩
    intro hd
    subst hd
    simp at hlen

theorem partialUpdate_ok_of_ne_nil (d t : JSObj) (hd : d ≠ []) :
    sqlForPartialUpdate d t
      = .ok ⟨joinSep ", " (colsAux t 0 (d.map Prod.fst)), d.map Prod.snd⟩ := by
  unfold sqlForPartialUpdate
  split
  · next hlen => simp at hlen; exact absurd hlen hd
  · rfl

theorem getField_of_not_keyIn {p : JSObj} {k : String} (h : keyIn p k = false) :
    getField p k = .undefined := by
  unfold keyIn at h
  unfold getField
  cases hl : lookupKey p k with
  | none => rfl
  | some v => rw [hl] at h; simp at h

/-- The `whereStatement` the companies builder produces, as a function of
the three presence booleans alone. -/
def companyWhereText (b1 b2 b3 : Bool) : String :=
  joinSep " AND " (companyFragList b1 b2 b3)

/-- The `whereStatement` the jobs builder produces, as a function of the
two presence booleans and the truthiness of the `hasEquity` flag. -/
def jobWhereText (b1 b2 bf : Bool) : String :=
  joinSep " AND " (jobFragList b1 b2 bf)

/-- Splitting `colsAux` around a distinguished key: the entry after a
prefix of length `m` is rendered with placeholder index `i + m + 1`. -/
theorem colsAux_append (t : JSObj) : ∀ (ks1 : List String) (k : String) (ks2 : List String) (i : Nat),
    colsAux t i (ks1 ++ k :: ks2)
      = colsAux t i ks1
        ++ ("\"" ++ physName t k ++ "\"=$" ++ natToStr (i + ks1.length + 1))
          :: colsAux t (i + ks1.length + 1) ks2 := by
  intro ks1
  induction ks1 with
  | nil =>
    intro k ks2 i
    simp [colsAux]
  | cons a ks1 ih =>
    intro k ks2 i
    rw [List.cons_append]
    show ("\"" ++ physName t a ++ "\"=$" ++ natToStr (i + 1)) :: colsAux t (i + 1) (ks1 ++ k :: ks2) = _
    rw [ih k ks2 (i + 1)]
    have h1 : i + 1 + ks1.length + 1 = i + (a :: ks1).length + 1 := by
      simp [List.length_cons]
      omega
    rw [h1]
    rfl

/-- CLAIM C8 (confirmed).  For every translation table, the partial-update
builder applied to a field map with zero entries fails with the
empty-update error (`BadRequestError("No data")`), producing no clause. -/
theorem claim8_empty_update (jsToSql : JSObj) :
    sqlForPartialUpdate [] jsToSql = .error (.badRequest "No data") := rfl

/-- CLAIM C9 (confirmed).  Every failure any builder can raise — the
empty-update case, the invalid-range case and the no-filter-criteria
case — is a `badRequest` (the embedding of `BadRequestError`) with a
fixed message, and the three messages are pairwise distinct, so the
taxonomy members are distinguishable only by message string, not by
error type. -/
theorem claim9_single_error_type :
    (∀ (d t : JSObj) (e : JError), sqlForPartialUpdate d t = .error e →
       e = .badRequest "No data")
    ∧ (∀ (p : JSObj) (e : JError), companySqlForFilter p = .error e →
       e = .badRequest "Minimum Employees must be less than Maximum Employees")
    ∧ (∀ (p : JSObj) (e : JError), jobSqlForFilter p = .error e →
       e = .badRequest "No search valid search parameters")
    ∧ ("No data" ≠ "Minimum Employees must be less than Maximum Employees"
       ∧ "No data" ≠ "No search valid search parameters"
       ∧ ("Minimum Employees must be less than Maximum Employees" : String)
           ≠ "No search valid search parameters") := by
  refine ⟨?_, ?_, ?_, by decide, by decide, by decide⟩
  · intro d t e h
    unfold sqlForPartialUpdate at h
    split at h
    · simp at h
      exact h.symm
    · simp at h
  · intro p e h
    unfold companySqlForFilter at h
    split at h
    · simp at h
      exact h.symm
    · simp at h
  · intro p e h
    unfold jobSqlForFilter at h
    split at h
    · simp at h
      exact h.symm
    · simp at h

/-- Witness for C9: each implication applied at a concrete failing input. -/
theorem claim9_witness :
    (JError.badRequest "No data" = .badRequest "No data")
    ∧ (JError.badRequest "Minimum Employees must be less than Maximum Employees"
        = .badRequest "Minimum Employees must be less than Maximum Employees")
    ∧ (JError.badRequest "No search valid search parameters"
        = .badRequest "No search valid search parameters") :=
  ⟨claim9_single_error_type.1 [] [] _ rfl,
   claim9_single_error_type.2.1 [("minEmployees", .num 10), ("maxEmployees", .num 1)] _ rfl,
   claim9_single_error_type.2.2.1 [] _ rfl⟩

/-- CLAIM C10 (confirmed).  Each filter builder's entire output (clause or
error) depends only on the bindings of its recognized keys — companies:
`nameLike`, `minEmployees`, `maxEmployees`; jobs: `titleLike`,
`minSalary`, `hasEquity` — so two inputs agreeing on those keys get the
same result, and unrecognized keys change nothing. -/
theorem claim10_recognized_keys_only :
    (∀ p q : JSObj, lookupKey p "nameLike" = lookupKey q "nameLike" →
       lookupKey p "minEmployees" = lookupKey q "minEmployees" →
       lookupKey p "maxEmployees" = lookupKey q "maxEmployees" →
       companySqlForFilter p = companySqlForFilter q)
    ∧ (∀ p q : JSObj, lookupKey p "titleLike" = lookupKey q "titleLike" →
       lookupKey p "minSalary" = lookupKey q "minSalary" →
       lookupKey p "hasEquity" = lookupKey q "hasEquity" →
       jobSqlForFilter p = jobSqlForFilter q) := by
  constructor
  · intro p q h1 h2 h3
    simp only [companySqlForFilter, companyBuild, getField, keyIn]
    rw [h1, h2, h3]
  · intro p q h1 h2 h3
    simp only [jobSqlForFilter, jobBuild, getField, keyIn]
    rw [h1, h2, h3]

/-- Witness for C10: adding an unrecognized key (`color`) to each filter
input changes neither builder's output. -/
theorem claim10_witness :
    companySqlForFilter [("nameLike", .str "net"), ("color", .str "blue")]
      = companySqlForFilter [("nameLike", .str "net")]
    ∧ jobSqlForFilter [("titleLike", .str "cat"), ("color", .str "blue")]
      = jobSqlForFilter [("titleLike", .str "cat")] :=
  ⟨claim10_recognized_keys_only.1 _ _ rfl rfl rfl,
   claim10_recognized_keys_only.2 _ _ rfl rfl rfl⟩

/-- Counterexample to C3 as stated: with `{minEmployees: 10, maxEmployees: 0}`
both bounds are present and the lower bound (10) is strictly greater than
the upper bound (0), yet the companies builder succeeds — the source
guards the range check with JS truthiness (`maxEmployees && minEmployees`),
so a present bound equal to `0` skips the check entirely. -/
theorem claim3_counterexample :
    keyIn [("minEmployees", JSVal.num 10), ("maxEmployees", JSVal.num 0)] "minEmployees" = true
    ∧ keyIn [("minEmployees", JSVal.num 10), ("maxEmployees", JSVal.num 0)] "maxEmployees" = true
    ∧ getField [("minEmployees", JSVal.num 10), ("maxEmployees", JSVal.num 0)] "minEmployees"
        = JSVal.num 10
    ∧ getField [("minEmployees", JSVal.num 10), ("maxEmployees", JSVal.num 0)] "maxEmployees"
        = JSVal.num 0
    ∧ (10 : Int) > 0
    ∧ companySqlForFilter [("minEmployees", JSVal.num 10), ("maxEmployees", JSVal.num 0)]
        = .ok ⟨"num_employees >= $1 AND num_employees <= $2", [JSVal.num 10, JSVal.num 0]⟩ :=
  ⟨rfl, rfl, rfl, rfl, by decide, rfl⟩

/-- CLAIM C3 (corrected).  Whenever both bounds are present with truthy
values (for numbers: nonzero) and `maxEmployees < minEmployees` under
the JS comparison, the companies builder fails with the range error
before emitting any fragment; in particular
`{minEmployees: 10, maxEmployees: 1}` fails so (witness below). -/
theorem claim3_amended_range_guard (p : JSObj)
    (hmax : truthy (getField p "maxEmployees") = true)
    (hmin : truthy (getField p "minEmployees") = true)
    (hlt : jsLt (getField p "maxEmployees") (getField p "minEmployees") = true) :
    companySqlForFilter p
      = .error (.badRequest "Minimum Employees must be less than Maximum Employees") := by
  unfold companySqlForFilter
  rw [hmax, hmin, hlt]
  rfl

/-- Witness for C3: the claim's own example `{minEmployees: 10, maxEmployees: 1}`. -/
theorem claim3_witness :
    companySqlForFilter [("minEmployees", JSVal.num 10), ("maxEmployees", JSVal.num 1)]
      = .error (.badRequest "Minimum Employees must be less than Maximum Employees") :=
  claim3_amended_range_guard _ rfl rfl rfl

/-- Counterexample to C4 as stated: on an empty `filterParams` the
companies builder emits zero fragments and nevertheless returns
successfully (an empty `whereStatement` and no values) instead of
failing — only the jobs builder has the zero-fragment guard. -/
theorem claim4_counterexample :
    companyBuild ([] : JSObj) = ([], [])
    ∧ companySqlForFilter ([] : JSObj) = .ok ⟨"", []⟩ :=
  ⟨rfl, rfl⟩

/-- CLAIM C4 (corrected).  When the key walk emits zero fragments, the
jobs builder fails with `BadRequestError("No search valid search parameters")`,
but the companies builder instead succeeds with an empty `whereStatement`
and an empty value list. -/
theorem claim4_amended_zero_fragments :
    (∀ p : JSObj, keyIn p "titleLike" = false → keyIn p "minSalary" = false →
       (keyIn p "hasEquity" && truthy (getField p "hasEquity")) = false →
       jobSqlForFilter p = .error (.badRequest "No search valid search parameters"))
    ∧ (∀ p : JSObj, keyIn p "nameLike" = false → keyIn p "minEmployees" = false →
       keyIn p "maxEmployees" = false →
       companySqlForFilter p = .ok ⟨"", []⟩) := by
  constructor
  · intro p h1 h2 hf
    unfold jobSqlForFilter
    rw [jobBuild_eq, h1, h2, hf]
    rfl
  · intro p h1 h2 h3
    have g3 := getField_of_not_keyIn h3
    have g2 := getField_of_not_keyIn h2
    unfold companySqlForFilter
    rw [g3, companyBuild_eq, h1, h2, h3]
    simp [companyValsList, h1, h2, h3, truthy, companyFragList, joinSep]

/-- Witness for C4: a `false`-valued `hasEquity` alone makes the jobs
builder fail; the empty companies filter succeeds vacuously. -/
theorem claim4_witness :
    jobSqlForFilter [("hasEquity", JSVal.bool false)]
      = .error (.badRequest "No search valid search parameters")
    ∧ companySqlForFilter ([] : JSObj) = .ok ⟨"", []⟩ :=
  ⟨claim4_amended_zero_fragments.1 _ rfl rfl rfl,
   claim4_amended_zero_fragments.2 _ rfl rfl rfl⟩

/-- Counterexample to C5 as stated: the translation table
`{firstName: ""}` has the key `firstName` present, yet the builder does
not use the table entry (which would give the fragment `""=$1`) — the
source's `jsToSql[colName] || colName` falls back to the logical key for
any falsy table entry, so the fragment is `"firstName"=$1`. -/
theorem claim5_counterexample :
    lookupKey [("firstName", JSVal.str "")] "firstName" = some (JSVal.str "")
    ∧ sqlForPartialUpdate [("firstName", JSVal.str "Aliya")] [("firstName", JSVal.str "")]
        = .ok ⟨"\"firstName\"=$1", [JSVal.str "Aliya"]⟩
    ∧ ("\"firstName\"=$1" : String) ≠ "\"\"=$1" :=
  ⟨rfl, rfl, by decide⟩

/-- CLAIM C5 (corrected).  For the entry at 0-based position `|d1|` of a
field map, the partial-update builder emits the double-quoted physical
column name followed by `=$(|d1|+1)`, where the physical name is the
translation-table entry whenever the key is present with a truthy
(non-empty) value and the logical key verbatim otherwise. -/
theorem claim5_amended_resolution (t d1 : JSObj) (k : String) (v : JSVal) (d2 : JSObj) :
    sqlForPartialUpdate (d1 ++ (k, v) :: d2) t
      = .ok ⟨joinSep ", " (colsAux t 0 (d1.map Prod.fst)
          ++ ("\"" ++ (if truthy (getField t k) then jsToString (getField t k) else k)
              ++ "\"=$" ++ natToStr (d1.length + 1))
            :: colsAux t (d1.length + 1) (d2.map Prod.fst)),
        (d1 ++ (k, v) :: d2).map Prod.snd⟩ := by
  rw [partialUpdate_ok_of_ne_nil _ _ (by simp)]
  have hmap : (d1 ++ (k, v) :: d2).map Prod.fst = d1.map Prod.fst ++ k :: d2.map Prod.fst := by
    simp
  rw [hmap, colsAux_append]
  have hlen : 0 + (d1.map Prod.fst).length + 1 = d1.length + 1 := by simp
  rw [hlen]
  rfl

/-- Counterexample to C2 as stated: a field map whose key contains the
text `$9` yields a `clauseText` in which a textual scan finds the
placeholder tokens `$9` and `$1` — not "exactly `n` placeholders numbered
`$1..$n`" for its single entry. -/
theorem claim2_counterexample :
    sqlForPartialUpdate [("a$9", JSVal.str "x")] [] = .ok ⟨"\"a$9\"=$1", [JSVal.str "x"]⟩
    ∧ placeholdersIn "\"a$9\"=$1" = [9, 1]
    ∧ ([9, 1] : List Nat) ≠ natRange 1 1 :=
  ⟨rfl, rfl, by decide⟩

/-- CLAIM C2 (corrected).  For every non-empty field map with `n` entries
and any translation table, the builder returns the `"col"=$(i+1)`
fragments joined with `", "` in insertion order and the entry values in
the same order (`values.length = n`); provided no resolved column name
contains a literal dollar sign, the placeholders occurring in
`clauseText` are exactly `$1..$n`.  The claim's own example
`build({firstName: "Aliya", age: 32}, {firstName: "first_name"})` holds
verbatim. -/
theorem claim2_amended :
    (∀ d t : JSObj, d ≠ [] →
       sqlForPartialUpdate d t
         = .ok ⟨joinSep ", " (colsAux t 0 (d.map Prod.fst)), d.map Prod.snd⟩
       ∧ (d.map Prod.snd).length = d.length
       ∧ ((∀ k ∈ d.map Prod.fst, ∀ c ∈ (physName t k).data, c ≠ '$') →
           placeholdersIn (joinSep ", " (colsAux t 0 (d.map Prod.fst))) = natRange 1 d.length))
    ∧ sqlForPartialUpdate [("firstName", .str "Aliya"), ("age", .num 32)]
        [("firstName", .str "first_name")]
      = .ok ⟨"\"first_name\"=$1, \"age\"=$2", [.str "Aliya", .num 32]⟩ := by
  constructor
  · intro d t hd
    refine ⟨partialUpdate_ok_of_ne_nil d t hd, by simp, ?_⟩
    intro hno
    have h := scan_colsAux t (d.map Prod.fst) 0 hno
    rw [List.length_map] at h
    exact h
  · rfl

/-- Witness for C2: a one-entry update through the amended theorem. -/
theorem claim2_witness :
    sqlForPartialUpdate [("age", JSVal.num 5)] [] = .ok ⟨"\"age\"=$1", [JSVal.num 5]⟩
    ∧ placeholdersIn "\"age\"=$1" = natRange 1 1 := by
  have h := claim2_amended.1 [("age", JSVal.num 5)] [] (by simp)
  exact ⟨h.1, h.2.2 (by decide)⟩

/-- Counterexample to C7 as stated: on the one-entry field map with key
`b$2` the builder succeeds, but the placeholders a textual scan finds in
`clauseText` are `$2` and `$1` — not contiguous `$1..$k` with
`k = values.length = 1`. -/
theorem claim7_counterexample :
    sqlForPartialUpdate [("b$2", JSVal.num 7)] [] = .ok ⟨"\"b$2\"=$1", [JSVal.num 7]⟩
    ∧ placeholdersIn "\"b$2\"=$1" = [2, 1]
    ∧ ([2, 1] : List Nat) ≠ natRange 1 1 :=
  ⟨rfl, rfl, by decide⟩

/-- CLAIM C7 (corrected).  Whenever a builder succeeds, the placeholders
occurring in the returned clause text are exactly `$1..$k`, contiguous
and in processing order, with `values.length = k` — unconditionally for
both filter builders (including the `hasEquity` fragment, which adds
literal text but no placeholder and no value), and for the
partial-update builder under the proviso that no resolved column name
contains a literal dollar sign. -/
theorem claim7_amended :
    (∀ (d t : JSObj) (c : SetClause), sqlForPartialUpdate d t = .ok c →
       (∀ k ∈ d.map Prod.fst, ∀ ch ∈ (physName t k).data, ch ≠ '$') →
       placeholdersIn c.setCols = natRange 1 c.values.length)
    ∧ (∀ (p : JSObj) (c : WhereClause), companySqlForFilter p = .ok c →
       placeholdersIn c.whereStatement = natRange 1 c.values.length)
    ∧ (∀ (p : JSObj) (c : WhereClause), jobSqlForFilter p = .ok c →
       placeholdersIn c.whereStatement = natRange 1 c.values.length) := by
  refine ⟨?_, ?_, ?_⟩
  · intro d t c hok hno
    obtain ⟨-, hc⟩ := partialUpdate_ok d t c hok
    subst hc
    show placeholdersIn (joinSep ", " (colsAux t 0 (d.map Prod.fst)))
        = natRange 1 (d.map Prod.snd).length
    rw [List.length_map]
    have h := scan_colsAux t (d.map Prod.fst) 0 hno
    rw [List.length_map] at h
    exact h
  · intro p c hok
    rw [company_ok p c hok]
    cases h1 : keyIn p "nameLike" <;> cases h2 : keyIn p "minEmployees" <;>
      cases h3 : keyIn p "maxEmployees" <;>
      simp [companyValsList, h1, h2, h3] <;> rfl
  · intro p c hok
    rw [job_ok p c hok]
    cases h1 : keyIn p "titleLike" <;> cases h2 : keyIn p "minSalary" <;>
      cases hf : (keyIn p "hasEquity" && truthy (getField p "hasEquity")) <;>
      simp [jobValsList, h1, h2, hf] <;> rfl

/-- Witness for C7: the jobs clause with all three filters — `equity > 0`
contributes no placeholder, so the two placeholders match the two values. -/
theorem claim7_witness :
    placeholdersIn "title ILIKE $1 AND salary >= $2 AND equity > 0" = natRange 1 2 :=
  claim7_amended.2.2
    [("titleLike", JSVal.str "cat"), ("minSalary", JSVal.num 2), ("hasEquity", JSVal.bool true)]
    ⟨"title ILIKE $1 AND salary >= $2 AND equity > 0", [JSVal.str "%cat%", JSVal.num 2]⟩ rfl

/-- CLAIM C6 (confirmed).  Each filter builder emits its fragments in the
fixed documented order — substring key, then lower bound, then upper
bound, then boolean flag — with the forms `<column> ILIKE $n` (value
pushed wrapped as `%value%`), `<column> >= $n`, `<column> <= $n`, and
(only when the flag is truthy) `equity > 0` with no placeholder and no
pushed value, joined with `" AND "`; the output depends only on which
recognized keys are present (plus the flag's truthiness), never on input
key order.  The claim's example `{nameLike: "net"}` holds verbatim. -/
theorem claim6_fixed_order :
    (∀ (p : JSObj) (c : WhereClause), companySqlForFilter p = .ok c →
       c.whereStatement = joinSep " AND " (companyFragList (keyIn p "nameLike")
         (keyIn p "minEmployees") (keyIn p "maxEmployees"))
       ∧ c.values = companyValsList p)
    ∧ (∀ (p : JSObj) (c : WhereClause), jobSqlForFilter p = .ok c →
       c.whereStatement = joinSep " AND " (jobFragList (keyIn p "titleLike")
         (keyIn p "minSalary") (keyIn p "hasEquity" && truthy (getField p "hasEquity")))
       ∧ c.values = jobValsList p)
    ∧ companySqlForFilter [("nameLike", JSVal.str "net")]
        = .ok ⟨"name ILIKE $1", [JSVal.str "%net%"]⟩ := by
  refine ⟨?_, ?_, rfl⟩
  · intro p c hok
    rw [company_ok p c hok]
    exact ⟨rfl, rfl⟩
  · intro p c hok
    rw [job_ok p c hok]
    exact ⟨rfl, rfl⟩

/-- Witness for C6: a companies filter given in scrambled input order
(`maxEmployees` first) still produces `name ILIKE $1` before
`num_employees <= $2`. -/
theorem claim6_witness :
    (⟨"name ILIKE $1 AND num_employees <= $2", [JSVal.str "%a%", JSVal.num 5]⟩
        : WhereClause).whereStatement
      = joinSep " AND " (companyFragList
          (keyIn [("maxEmployees", JSVal.num 5), ("nameLike", JSVal.str "a")] "nameLike")
          (keyIn [("maxEmployees", JSVal.num 5), ("nameLike", JSVal.str "a")] "minEmployees")
          (keyIn [("maxEmployees", JSVal.num 5), ("nameLike", JSVal.str "a")] "maxEmployees"))
    ∧ (⟨"name ILIKE $1 AND num_employees <= $2", [JSVal.str "%a%", JSVal.num 5]⟩
        : WhereClause).values
      = companyValsList [("maxEmployees", JSVal.num 5), ("nameLike", JSVal.str "a")] :=
  claim6_fixed_order.1 [("maxEmployees", JSVal.num 5), ("nameLike", JSVal.str "a")] _ rfl

/-- Counterexample to C1 as stated.  First, the jobs `clauseText` is not
determined solely by which keys are present: two inputs with identical
key-presence patterns but different `hasEquity` values produce different
clause texts.  Second, an untranslated field key — here one containing a
double quote — is embedded verbatim (quoted but unescaped) in the
update `clauseText`, so it is not a column name validated against the
translation table or any fixed allow-list. -/
theorem claim1_counterexample :
    keyIn [("titleLike", JSVal.str "a"), ("hasEquity", JSVal.bool true)] "titleLike"
      = keyIn [("titleLike", JSVal.str "a"), ("hasEquity", JSVal.bool false)] "titleLike"
    ∧ keyIn [("titleLike", JSVal.str "a"), ("hasEquity", JSVal.bool true)] "minSalary"
      = keyIn [("titleLike", JSVal.str "a"), ("hasEquity", JSVal.bool false)] "minSalary"
    ∧ keyIn [("titleLike", JSVal.str "a"), ("hasEquity", JSVal.bool true)] "hasEquity"
      = keyIn [("titleLike", JSVal.str "a"), ("hasEquity", JSVal.bool false)] "hasEquity"
    ∧ jobSqlForFilter [("titleLike", JSVal.str "a"), ("hasEquity", JSVal.bool true)]
        = .ok ⟨"title ILIKE $1 AND equity > 0", [JSVal.str "%a%"]⟩
    ∧ jobSqlForFilter [("titleLike", JSVal.str "a"), ("hasEquity", JSVal.bool false)]
        = .ok ⟨"title ILIKE $1", [JSVal.str "%a%"]⟩
    ∧ ("title ILIKE $1 AND equity > 0" : String) ≠ "title ILIKE $1"
    ∧ sqlForPartialUpdate [("a\" OR 1=1 --", JSVal.num 1)] []
        = .ok ⟨"\"a\" OR 1=1 --\"=$1", [JSVal.num 1]⟩ :=
  ⟨rfl, rfl, rfl, rfl, rfl, by decide, rfl⟩

/-- CLAIM C1 (corrected).  No client-supplied entry value ever appears in
the clause text: the update builder's `setCols` is a function of the key
list and the translation table only (entry values reach the SQL solely
through `values`, which is exactly the entry-value list), and each
filter builder's `whereStatement` is a function of the recognized-key
presence booleans plus — for jobs — the truthiness of the `hasEquity`
flag, with every client value reaching the SQL only through the pushed
`values` (substring values wrapped as `%value%`).  The literal column
names in the filter clauses come from the fixed per-resource fragment
lists; in the update clause they are the table translations or the field
keys themselves (untranslated keys are embedded verbatim, not checked
against any allow-list). -/
theorem claim1_amended :
    (∀ (d t : JSObj) (c : SetClause), sqlForPartialUpdate d t = .ok c →
       c.setCols = joinSep ", " (colsAux t 0 (d.map Prod.fst)) ∧ c.values = d.map Prod.snd)
    ∧ (∀ (p : JSObj) (c : WhereClause), companySqlForFilter p = .ok c →
       c.whereStatement = companyWhereText (keyIn p "nameLike") (keyIn p "minEmployees")
           (keyIn p "maxEmployees")
       ∧ c.values = companyValsList p)
    ∧ (∀ (p : JSObj) (c : WhereClause), jobSqlForFilter p = .ok c →
       c.whereStatement = jobWhereText (keyIn p "titleLike") (keyIn p "minSalary")
           (keyIn p "hasEquity" && truthy (getField p "hasEquity"))
       ∧ c.values = jobValsList p) := by
  refine ⟨?_, ?_, ?_⟩
  · intro d t c hok
    obtain ⟨-, hc⟩ := partialUpdate_ok d t c hok
    subst hc
    exact ⟨rfl, rfl⟩
  · intro p c hok
    rw [company_ok p c hok]
    exact ⟨rfl, rfl⟩
  · intro p c hok
    rw [job_ok p c hok]
    exact ⟨rfl, rfl⟩

/-- Witness for C1: the update part of the amended theorem applied at a
concrete input. -/
theorem claim1_witness :
    (⟨"\"age\"=$1", [JSVal.num 7]⟩ : SetClause).setCols
      = joinSep ", " (colsAux ([] : JSObj) 0 ([("age", JSVal.num 7)].map Prod.fst))
    ∧ (⟨"\"age\"=$1", [JSVal.num 7]⟩ : SetClause).values
      = [("age", JSVal.num 7)].map Prod.snd :=
  claim1_amended.1 [("age", JSVal.num 7)] [] ⟨"\"age\"=$1", [JSVal.num 7]⟩ rfl
